import Mathlib

/-!
Verification development for the clinical-filter inheritance-classification
engine.  The Lean definitions below are shallow embeddings of the Python
source files:

  * src/clinicalfilter/trio_genotypes.py   (TrioGenotypes)
  * src/clinicalfilter/filter.py           (Filter.create_gene_dict,
                                            Filter.find_variants,
                                            Filter.exclude_duplicates,
                                            Filter init)
  * src/src/main/python/clinicalfilter/load_files.py
                                           (open_file, open_known_genes,
                                            create_person_ID_mapper,
                                            open_cnv_regions)

Python ints become Nat, Python floats become Rat, Python dicts become
insertion-ordered association lists, raised exceptions become Except.
-/

namespace ClinicalFilter

/-- Python exception kinds raised by the embedded code paths. -/
inductive PyErr where
  | typeError : PyErr
  | valueError : PyErr
  | keyError : String → PyErr
  | indexError : PyErr
  | nameError : PyErr
  | ioError : PyErr
  | permissionError : PyErr
deriving DecidableEq, Repr

/-! ## trio_genotypes.py : TrioGenotypes -/

/-- Model of Python int(s) applied to a chromosome string: the value of a
nonempty all-digit string, and parse failure (ValueError) otherwise.  The
documented chromosome shapes ("1".."22", X/Y/MT with an optional chr prefix
in any case) never use signs or whitespace, so this covers them exactly. -/
def parseNat (s : String) : Option Nat :=
  if s.data ≠ [] ∧ s.data.all (fun c => c.isDigit) then
    some (s.data.foldl (fun a c => 10 * a + (c.toNat - 48)) 0)
  else
    none

/-- Python str.upper() for the ASCII chromosome strings: uppercase each
character. -/
def py_upper (s : String) : String := ⟨s.data.map Char.toUpper⟩

/-- TrioGenotypes.chrom_to_int (trio_genotypes.py lines 47-66): try int(chrom)
first, then look chrom.upper() up in the sex-chromosome dict
X/CHRX -> 23, Y/CHRY -> 24, MT/CHRMT -> 25; any other string raises
(KeyError), modelled as none. -/
def chrom_to_int (chrom : String) : Option Nat :=
  match parseNat chrom with
  | some n => some n
  | none =>
    match py_upper chrom with
    | "X" => some 23
    | "CHRX" => some 23
    | "Y" => some 24
    | "CHRY" => some 24
    | "MT" => some 25
    | "CHRMT" => some 25
    | _ => none

/-- The fields of the child Variant object that trio_genotypes.py reads:
the INFO keys (only membership is tested), the parsed float value of
format "PP_DNM" when that key is present, the string value of format
"TEAM29_FILTER" when present, and get_genotype(). -/
structure Variant where
  info : List String
  pp_dnm : Option Rat
  team29_filter : Option String
  genotype : Nat
deriving DecidableEq, Repr

/-- Model of a TrioGenotypes object.  chrom and position are the values of
self.get_chrom() / self.get_position() (delegated to the child variant);
mother_genotype / father_genotype are the genotypes of the attached
mother/father variants, none when the parent variant was never attached
(get_trio_genotype then reports "NA"). -/
structure TrioGenotypes where
  chrom : String
  position : Nat
  child : Variant
  mother_genotype : Option Nat
  father_genotype : Option Nat
  inheritance_type : String
deriving DecidableEq, Repr

/-- TrioGenotypes.get_trio_genotype (lines 103-116): child genotype plus the
parent genotypes, none standing for the string "NA". -/
def get_trio_genotype (t : TrioGenotypes) : Nat × Option Nat × Option Nat :=
  (t.child.genotype, t.mother_genotype, t.father_genotype)

/-- TrioGenotypes.get_de_novo_genotype (lines 118-129): (1, 0, 0) by default,
(2, 0, 0) when inheritance_type is "XChrMale". -/
def get_de_novo_genotype (t : TrioGenotypes) : Nat × Nat × Nat :=
  if t.inheritance_type = "XChrMale" then (2, 0, 0) else (1, 0, 0)

/-- Python equality between the trio genotype tuple (whose parent slots may
hold the string "NA") and an all-int genotype tuple: an "NA" slot never
equals an int, so the tuples are equal iff every slot is present and equal. -/
def trio_matches (t : Nat × Option Nat × Option Nat) (g : Nat × Nat × Nat) : Bool :=
  decide (t.1 = g.1) && decide (t.2.1 = some g.2.1) && decide (t.2.2 = some g.2.2)

/-- TrioGenotypes.passes_de_novo_checks (lines 131-176): a non-de-novo trio
genotype returns True immediately; otherwise the child INFO must contain
DENOVO-SNP or DENOVO-INDEL, a present PP_DNM must not be below pp_filter,
and a present TEAM29_FILTER must equal "PASS".  Debug print statements are
ignored (pure logging). -/
def passes_de_novo_checks (t : TrioGenotypes) (pp_filter : Rat) : Bool :=
  if trio_matches (get_trio_genotype t) (get_de_novo_genotype t) = false then
    true
  else if (decide ("DENOVO-SNP" ∈ t.child.info) || decide ("DENOVO-INDEL" ∈ t.child.info)) = false then
    false
  else if (match t.child.pp_dnm with
           | some p => decide (p < pp_filter)
           | none => false) = true then
    false
  else if (match t.child.team29_filter with
           | some v => decide (¬ v = "PASS")
           | none => false) = true then
    false
  else
    true

/-- The (chromosome-as-int, position) sort key used by the rich comparison
methods of TrioGenotypes (lines 68-78); none when chrom_to_int raises. -/
def tg_key (t : TrioGenotypes) : Option (Nat × Nat) :=
  match chrom_to_int t.chrom with
  | some c => some (c, t.position)
  | none => none

/-- TrioGenotypes eq (line 68-70): key tuples compared for equality;
none when either key computation raises. -/
def tg_eq (a b : TrioGenotypes) : Option Bool :=
  match tg_key a, tg_key b with
  | some ka, some kb => some (decide (ka = kb))
  | _, _ => none

/-- TrioGenotypes lt (line 76-78): lexicographic comparison of the key
tuples, mirroring Python tuple ordering. -/
def tg_lt (a b : TrioGenotypes) : Option Bool :=
  match tg_key a, tg_key b with
  | some ka, some kb => some (decide (ka.1 < kb.1 ∨ (ka.1 = kb.1 ∧ ka.2 < kb.2)))
  | _, _ => none

/-- All upper/lower casings of a character list. -/
def case_variants : List Char → List (List Char)
  | [] => [[]]
  | c :: cs => (case_variants cs).flatMap (fun r => [c.toLower :: r, c.toUpper :: r])

/-- Every casing of "x" and of "chrx": the documented spellings of the X
chromosome. -/
def x_forms : List String :=
  (case_variants ['x'] ++ case_variants ['c', 'h', 'r', 'x']).map (fun l => ⟨l⟩)

/-- Every casing of "y" and of "chry". -/
def y_forms : List String :=
  (case_variants ['y'] ++ case_variants ['c', 'h', 'r', 'y']).map (fun l => ⟨l⟩)

/-- Every casing of "mt" and of "chrmt". -/
def mt_forms : List String :=
  (case_variants ['m', 't'] ++ case_variants ['c', 'h', 'r', 'm', 't']).map (fun l => ⟨l⟩)

/-- The documented numeric chromosome strings "1" .. "22". -/
def numeric_chroms : List String :=
  ["1", "2", "3", "4", "5", "6", "7", "8", "9", "10", "11",
   "12", "13", "14", "15", "16", "17", "18", "19", "20", "21", "22"]

/-- A TrioGenotypes record with the given chromosome and position and
inert remaining fields, for stating comparison properties. -/
def mkRecord (chrom : String) (pos : Nat) : TrioGenotypes :=
  { chrom := chrom, position := pos,
    child := { info := [], pp_dnm := none, team29_filter := none, genotype := 0 },
    mother_genotype := none, father_genotype := none,
    inheritance_type := "autosomal" }

/-! ## load_files.py (src/src/main/python/clinicalfilter/load_files.py) -/

/-- A text file already line-split and tab-split: each element is one line
strip()-ed and split("\t"). -/
def FileData := List (List String)

/-- The filesystem: what io.open finds at each path, where none means the
path cannot be opened at all. -/
def FileSystem := String → Option FileData

/-- open_file (load_files.py lines 10-38).  Called with path None (as
Filter init does when no table is configured), io.open(None, ...) raises
TypeError, which the retry loop does not catch (it catches only
PermissionError).  A path the filesystem persistently refuses exhausts the
five retries and raises IOError; modelling transient timing is out of
scope, so a refused path errors directly. -/
def open_file (fs : FileSystem) : Option String → Except PyErr FileData
  | none => .error .typeError
  | some path =>
    match fs path with
    | some contents => .ok contents
    | none => .error .ioError

/-- One parsed data line of the known-genes table, in the "type"-style
header layout: gene, type (confirmed status), mode (inheritance),
mech (mechanism), start, stop, chr. -/
structure GeneRow where
  gene : String
  status : String
  inh : String
  mech : String
  start : String
  stop : String
  chrom : String
deriving DecidableEq, Repr

/-- The per-gene dict built by open_known_genes (lines 104-126).  Its keys
are exactly "inheritance" (a dict from inheritance mode to the set of
mechanisms), "confirmed_status" (a set of status strings), and "start",
"end", "chrom" (strings, always set by the same iteration that creates the
entry; none models the key being absent).  Python sets are modelled as
insertion-ordered duplicate-free lists. -/
structure GeneEntry where
  inheritance : List (String × List String)
  confirmed_status : List String
  start : Option String
  stop : Option String
  chrom : Option String
deriving DecidableEq, Repr

/-- Python dict lookup d[k] on a GeneEntry: any key other than the five
that open_known_genes creates raises KeyError(k).  The three scalar slots
raise KeyError when still unset (never the case for entries the loader
returns).  The looked-up value is irrelevant to the claims, so the result
is reported as a unit. -/
def gene_entry_getitem (e : GeneEntry) (k : String) : Except PyErr Unit :=
  if k = "inheritance" then .ok ()
  else if k = "confirmed_status" then .ok ()
  else if k = "start" then (match e.start with | some _ => .ok () | none => .error (.keyError k))
  else if k = "end" then (match e.stop with | some _ => .ok () | none => .error (.keyError k))
  else if k = "chrom" then (match e.chrom with | some _ => .ok () | none => .error (.keyError k))
  else .error (.keyError k)

/-- First-match association-list lookup, the model of Python dict access
(dict keys are unique, so first match is the only match). -/
def alookup {κ α : Type} [DecidableEq κ] : List (κ × α) → κ → Option α
  | [], _ => none
  | (k2, v) :: rest, k => if k = k2 then some v else alookup rest k

/-- set.add: append the element unless already present. -/
def set_add (xs : List String) (x : String) : List String :=
  if x ∈ xs then xs else xs ++ [x]

/-- Ensure the mode key exists in the inheritance dict (with an empty
mechanism set) and add the mechanism to its set: load_files.py lines
107-110 and the Both-expansion adds at lines 121-126. -/
def inh_add (m : List (String × List String)) (mode mech : String) :
    List (String × List String) :=
  let m1 := if (alookup m mode).isSome then m else m ++ [(mode, [])]
  m1.map (fun p => if p.1 = mode then (p.1, set_add p.2 mech) else p)

/-- Statuses accepted by open_known_genes (lines 89-90). -/
def allowed_confirmed_statuses : List String :=
  ["Confirmed DD Gene", "Probable DD gene", "Both DD and IF"]

/-- One iteration of the open_known_genes row loop (lines 93-126): skip
rows with insufficient status; otherwise create the gene entry if new, add
the mechanism under the row's inheritance mode, add the status, overwrite
start/end/chrom, and expand an inheritance mode of "Both" into both
Monoallelic and Biallelic. -/
def known_genes_add_row (kg : List (String × GeneEntry)) (r : GeneRow) :
    List (String × GeneEntry) :=
  if r.status ∉ allowed_confirmed_statuses then kg
  else
    let kg1 := if (alookup kg r.gene).isSome then kg
      else kg ++ [(r.gene, ⟨[], [], none, none, none⟩)]
    kg1.map (fun p =>
      if p.1 = r.gene then
        let e := p.2
        let e := { e with
          inheritance := inh_add e.inheritance r.inh r.mech,
          confirmed_status := set_add e.confirmed_status r.status,
          start := some r.start, stop := some r.stop, chrom := some r.chrom }
        let e := if r.inh = "Both" then
            { e with inheritance :=
                inh_add (inh_add e.inheritance "Monoallelic" r.mech) "Biallelic" r.mech }
          else e
        (p.1, e)
      else p)

/-- List.indexOf via position of the first match; none models
list.index(x) raising ValueError. -/
def pyIndex (xs : List String) (x : String) : Option Nat :=
  match xs with
  | [] => none
  | y :: rest => if y = x then some 0 else (pyIndex rest x).map (· + 1)

/-- line[i] with IndexError on a short line. -/
def getCol (line : List String) (i : Nat) : Except PyErr String :=
  match line.get? i with
  | some v => .ok v
  | none => .error .indexError

/-- header.index(label) with ValueError on a missing label. -/
def headerIndex (header : List String) (label : String) : Except PyErr Nat :=
  match pyIndex header label with
  | some i => .ok i
  | none => .error .valueError

/-- open_known_genes (load_files.py lines 40-133).  The first line is the
header.  With a "DDG2P_Status"-style header only four of the seven column
labels are ever assigned, so header.index(start_label) at line 84 raises
NameError.  With a "type"-style header the seven column positions are
located, every data row is folded through known_genes_add_row, and an
empty result raises ValueError. -/
def open_known_genes (fs : FileSystem) (path : Option String) :
    Except PyErr (List (String × GeneEntry)) := do
  let f ← open_file fs path
  let header := f.headD [""]
  let lines := f.tail
  if "DDG2P_Status" ∈ header then
    .error .nameError
  else if "type" ∈ header then do
    let gene_column ← headerIndex header "gene"
    let confirmed_status_column ← headerIndex header "type"
    let inheritance_column ← headerIndex header "mode"
    let mechanism_column ← headerIndex header "mech"
    let start_column ← headerIndex header "start"
    let stop_column ← headerIndex header "stop"
    let chrom_column ← headerIndex header "chr"
    let kg ← lines.foldlM (fun kg line => do
      let gene ← getCol line gene_column
      let status ← getCol line confirmed_status_column
      let inh ← getCol line inheritance_column
      let mech ← getCol line mechanism_column
      let start ← getCol line start_column
      let stop ← getCol line stop_column
      let chrom ← getCol line chrom_column
      pure (known_genes_add_row kg ⟨gene, status, inh, mech, start, stop, chrom⟩)) []
    if kg.isEmpty then .error .valueError else pure kg
  else
    .error .valueError

/-- create_person_ID_mapper (load_files.py lines 135-161): every line
(there is no header skip) maps line[0] to line[1]. -/
def create_person_ID_mapper (fs : FileSystem) (path : Option String) :
    Except PyErr (List (String × String)) := do
  let f ← open_file fs path
  f.foldlM (fun m line => do
    let person ← getCol line 0
    let alternate ← getCol line 1
    pure (m.map (fun p => if p.1 = person then (p.1, alternate) else p) ++
      (if (alookup m person).isSome then [] else [(person, alternate)]))) []

/-- open_cnv_regions (load_files.py lines 264-291): drop the header line,
then map (line[5], line[3], line[4]) to line[2]. -/
def open_cnv_regions (fs : FileSystem) (path : Option String) :
    Except PyErr (List ((String × String × String) × String)) := do
  let f ← open_file fs path
  f.tail.foldlM (fun m line => do
    let chrom ← getCol line 5
    let start ← getCol line 3
    let stop ← getCol line 4
    let copy_number ← getCol line 2
    let key := (chrom, start, stop)
    pure (m.map (fun p => if p.1 = key then (p.1, copy_number) else p) ++
      (if (alookup m key).isSome then [] else [(key, copy_number)]))) []

/-! ## filter.py : Filter -/

/-- The reference tables held by a constructed Filter object (the loader
and reporter collaborators are outside the classification core). -/
structure FilterState where
  known_genes : List (String × GeneEntry)
  id_mapper : List (String × String)
  cnv_regions : List ((String × String × String) × String)
deriving Repr

/-- Filter init (filter.py lines 39-77) restricted to the reference-table
loading it performs at lines 69-71: open_known_genes, then
create_person_ID_mapper, then open_cnv_regions, each called with the
configured path.  (The source also imports and calls open_last_base_sites,
which the load_files module under src/ does not even define.)  The comment
at line 68 says these loaders return None when the paths are None; the
loaders under src/ have no such branch. -/
def filter_init (fs : FileSystem)
    (known_genes alternate_ids regions : Option String) :
    Except PyErr FilterState := do
  let kg ← open_known_genes fs known_genes
  let idm ← create_person_ID_mapper fs alternate_ids
  let cnv ← open_cnv_regions fs regions
  pure ⟨kg, idm, cnv⟩

/-- The fields of a TrioGenotypes variant that Filter.find_variants reads:
is_cnv(), the genes for which child.is_lof(gene) holds, the genes for
which child.is_missense(gene) holds, and get_inheritance_type(). -/
structure FVVariant where
  is_cnv : Bool
  lof_genes : List String
  missense_genes : List String
  inheritance_type : String
deriving DecidableEq, Repr

/-- Filter.find_variants (filter.py lines 155-205).  The Autosomal and
Allosomal classifiers are external collaborators not under src/, so the
candidate search for each dispatch arm is passed in as a function.  The
body mirrors the source: first the gene_inh lookup
known_genes[gene]["inh"] (line 171, evaluated whenever a panel is
configured and the gene is in it, and used only for logging), then the
CNV-only restriction for off-panel genes, the early return for gene None,
the lof/missense functional-category gate, and the dispatch on the first
remaining variant's inheritance type ("autosomal" to Autosomal, the three
allosomal strings to Allosomal, anything else leaves the finder variable
unbound, a NameError). -/
def find_variants (known_genes : Option (List (String × GeneEntry)))
    (autosomal allosomal : List FVVariant → List (FVVariant × List String × List String))
    (variants : List FVVariant) (gene : Option String) :
    Except PyErr (List (FVVariant × List String × List String × List String)) := do
  let _gene_inh ← (match known_genes, gene with
    | some kg, some g =>
      match alookup kg g with
      | some entry => (gene_entry_getitem entry "inh").map some
      | none => pure none
    | _, _ => pure (none : Option Unit))
  let variants := match known_genes, gene with
    | some kg, some g =>
      if (alookup kg g).isSome then variants else variants.filter (·.is_cnv)
    | some _, none => variants.filter (·.is_cnv)
    | none, _ => variants
  match gene with
  | none => pure []
  | some g =>
    let variants := variants.filter
      (fun v => decide (g ∈ v.lof_genes) || decide (g ∈ v.missense_genes))
    match variants with
    | [] => pure []
    | v :: rest =>
      let cands ←
        if v.inheritance_type = "autosomal" then
          pure (autosomal (v :: rest))
        else if v.inheritance_type ∈ ["XChrMale", "XChrFemale", "YChrMale"] then
          pure (allosomal (v :: rest))
        else
          .error .nameError
      pure (cands.map (fun c => (c.1, c.2.1, c.2.2, [g])))

/-! ## filter.py : Filter.create_gene_dict -/

/-- Filter.create_gene_dict (filter.py lines 132-153), value-level model.
The dict of per-gene buckets is an insertion-ordered association list from
gene symbol (none for a missing symbol) to the bucket list; each variant is
appended to the bucket of every gene in its get_genes() list. -/
def bucket_add {α : Type} (acc : List (Option String × List α))
    (g : Option String) (var : α) : List (Option String × List α) :=
  if (alookup acc g).isSome then
    acc.map (fun p => if p.1 = g then (p.1, p.2 ++ [var]) else p)
  else
    acc ++ [(g, [var])]

/-- create_gene_dict: fold every variant's gene list through bucket_add.
getGenes abstracts var.get_genes() (the record type itself is opaque to
this function). -/
def create_gene_dict {α : Type} (getGenes : α → List (Option String))
    (variants : List α) : List (Option String × List α) :=
  variants.foldl (fun acc var =>
    (getGenes var).foldl (fun acc g => bucket_add acc g var) acc) []

/-- genes_dict[gene] viewed as a bucket: the entry list, or [] when the
gene has no entry (Python would raise, but the claims only inspect genes
through this accessor). -/
def bucket {α : Type} (d : List (Option String × List α)) (g : Option String) :
    List α :=
  (alookup d g).getD []

/-! ## filter.py : Filter.exclude_duplicates, value-level model -/

/-- A candidate tuple (variant, check_types, inheritance, hgnc_symbols) as
produced at filter.py line 203 and merged at lines 207-240.  The record
type is abstract; its identity key variant[0].child.get_key() is supplied
as a function. -/
structure Candidate (ρ : Type) where
  record : ρ
  checks : List String
  inh : List String
  genes : List String
deriving DecidableEq, Repr

/-- The list comprehension [x for x in extra if x not in old]. -/
def new_only (old extra : List String) : List String :=
  extra.filter (fun x => decide (x ∉ old))

/-- Merging a later candidate d into the canonical candidate c for the
same key (filter.py lines 224-236): append the check types, inheritance
tags and gene symbols of d that are not already present, in order. -/
def merge_cand {ρ : Type} (c d : Candidate ρ) : Candidate ρ :=
  { record := c.record,
    checks := c.checks ++ new_only c.checks d.checks,
    inh := c.inh ++ new_only c.inh d.inh,
    genes := c.genes ++ new_only c.genes d.genes }

/-- One loop iteration of exclude_duplicates (lines 219-236): a new key
appends a fresh entry, an existing key merges into its entry. -/
def upsert {ρ κ : Type} [DecidableEq κ] (K : ρ → κ)
    (acc : List (κ × Candidate ρ)) (v : Candidate ρ) : List (κ × Candidate ρ) :=
  let k := K v.record
  if (alookup acc k).isSome then
    acc.map (fun p => if p.1 = k then (p.1, merge_cand p.2 v) else p)
  else
    acc ++ [(k, v)]

/-- Filter.exclude_duplicates (filter.py lines 207-240), value-level model:
fold the candidates through the keyed dict and return the entries in key
insertion order (Python dicts preserve insertion order).  The value-level
model coincides with the Python output whenever the input candidates carry
pairwise distinct list objects, which is how filter.py line 203 builds
them; the in-place mutation the source performs on the canonical entries
is modelled separately below. -/
def exclude_duplicates {ρ κ : Type} [DecidableEq κ] (K : ρ → κ)
    (vs : List (Candidate ρ)) : List (Candidate ρ) :=
  (vs.foldl (upsert K) []).map Prod.snd

/-- Folding a same-key group into its first occurrence. -/
def merge_group {ρ : Type} (c : Candidate ρ) (ds : List (Candidate ρ)) :
    Candidate ρ :=
  ds.foldl merge_cand c

/-- The contract of exclude_duplicates in the words of spec section 4.7:
the first occurrence of each key becomes the canonical entry and absorbs
every later occurrence with the same key; distinct keys keep first-seen
order.  Stated as a second definition to be compared with the
implementation model above. -/
def spec_merge {ρ κ : Type} [DecidableEq κ] (K : ρ → κ) :
    List (Candidate ρ) → List (Candidate ρ)
  | [] => []
  | v :: rest =>
    merge_group v (rest.filter (fun w => decide (K w.record = K v.record))) ::
      spec_merge K (rest.filter (fun w => decide (¬ K w.record = K v.record)))
termination_by l => l.length
decreasing_by
  simp only [List.length_cons]
  exact Nat.lt_succ_of_le (List.length_filter_le _ _)

/-- A candidate whose three lists are duplicate-free, the invariant of
spec section 3 on Candidate results. -/
def AllNodup {ρ : Type} (c : Candidate ρ) : Prop :=
  c.checks.Nodup ∧ c.inh.Nodup ∧ c.genes.Nodup

instance {ρ : Type} (c : Candidate ρ) : Decidable (AllNodup c) := by
  unfold AllNodup; infer_instance

/-! ## filter.py : Filter.exclude_duplicates, heap-level model

The source mutates shared list objects: unique_vars[key] = list(variant)
copies the four-tuple but not the three inner lists, and the later
+= extends those inner lists in place.  To capture that, candidates hold
references into a store of lists. -/

/-- The heap of Python list objects, addressed by position; reading an
unallocated address yields the empty list (never exercised by well-formed
inputs). -/
def Store := List (List String)

/-- Read the list object at address r. -/
def sread (σ : Store) (r : Nat) : List String :=
  (σ : List (List String)).getD r []

/-- Overwrite the list object at address r (list.__iadd__ rebinds the same
object, so in-place extension is an overwrite at the same address). -/
def swrite (σ : Store) (r : Nat) (v : List String) : Store :=
  (σ : List (List String)).set r v

/-- A candidate tuple whose three lists are references into the store; the
record is reduced to its identity key. -/
structure CandRef where
  key : Nat
  checks : Nat
  inh : Nat
  genes : Nat
deriving DecidableEq, Repr

/-- One loop iteration of exclude_duplicates over the store: a new key
stores the candidate (sharing its list references, as list(variant) does);
an existing key extends the canonical entry's three lists in place, in the
statement order of filter.py lines 230, 231, 235-236. -/
def merge_step (σ : Store) (acc : List (Nat × CandRef)) (v : CandRef) :
    Store × List (Nat × CandRef) :=
  match alookup acc v.key with
  | some c =>
    let σ := swrite σ c.checks (sread σ c.checks ++ new_only (sread σ c.checks) (sread σ v.checks))
    let σ := swrite σ c.inh (sread σ c.inh ++ new_only (sread σ c.inh) (sread σ v.inh))
    let σ := swrite σ c.genes (sread σ c.genes ++ new_only (sread σ c.genes) (sread σ v.genes))
    (σ, acc)
  | none => (σ, acc ++ [(v.key, v)])

/-- Filter.exclude_duplicates over the store: the final store (recording
every in-place mutation) and the merged candidates. -/
def exclude_duplicates_store (σ : Store) (vs : List CandRef) :
    Store × List CandRef :=
  let r := vs.foldl (fun (p : Store × List (Nat × CandRef)) v => merge_step p.1 p.2 v) (σ, [])
  (r.1, r.2.map Prod.snd)

/-- The candidates that are the first occurrence of their key, relative to
a set of already-seen keys. -/
def first_occs_from (seen : List Nat) : List CandRef → List CandRef
  | [] => []
  | v :: rest =>
    if v.key ∈ seen then first_occs_from seen rest
    else v :: first_occs_from (v.key :: seen) rest

/-- The store addresses of the three lists of every first-occurrence
candidate: the only addresses exclude_duplicates writes. -/
def first_occ_refs (vs : List CandRef) : List Nat :=
  (first_occs_from [] vs).flatMap (fun c => [c.checks, c.inh, c.genes])

/-! ## CNVInheritance.check_compound_inheritance -/

/-- Modelled from the spec: CNVInheritance.check_compound_inheritance is
not under src/ (only its unit tests in tests/test_cnv_inheritance.py are),
so this follows spec section 4.5: the variant passes if either the
DDG2P-panel route (passes_ddg2p_filter, itself outside src/ and taken as a
boolean input) succeeds, or the size route succeeds; the size route
requires nonzero copy number and SVLEN exceeding 1,000,000 bp, or 500,000
bp in a hemizygous (X chromosome, male) context.  Both routes are
independent. -/
def check_compound_inheritance (passes_ddg2p : Bool) (copy_number : Nat)
    (svlen : Int) (hemizygous : Bool) : Bool :=
  passes_ddg2p ||
    (decide (copy_number ≠ 0) &&
      decide (svlen > (if hemizygous then (500000 : Int) else 1000000)))

/-! ## Concrete fixtures used by the theorems below -/

/-- Every documented spelling of a sex chromosome. -/
def sex_forms : List String := x_forms ++ y_forms ++ mt_forms

/-- A filesystem holding a one-row known-genes table in the "type"-style
layout, with one gene of confirmed status. -/
def fsC1 : FileSystem := fun p =>
  if p = "genes.txt" then
    some [["gene", "type", "mode", "mech", "start", "stop", "chr"],
          ["TEST1", "Confirmed DD Gene", "Monoallelic", "Loss of function", "1000", "2000", "1"]]
  else none

/-- A record on a y_in_male locus whose trio genotype is the standard
single-alt-allele de novo pattern. -/
def tgYChrMale : TrioGenotypes :=
  { chrom := "Y", position := 150,
    child := { info := [], pp_dnm := none, team29_filter := none, genotype := 1 },
    mother_genotype := some 0, father_genotype := some 0,
    inheritance_type := "YChrMale" }

/-- A record on an x_in_male locus with the male hemizygous de novo
genotype. -/
def tgXChrMale : TrioGenotypes :=
  { chrom := "X", position := 150,
    child := { info := [], pp_dnm := none, team29_filter := none, genotype := 2 },
    mother_genotype := some 0, father_genotype := some 0,
    inheritance_type := "XChrMale" }

/-- An autosomal de novo record carrying a de novo marker, a passing
posterior probability and a passing internal filter value. -/
def tgDeNovo : TrioGenotypes :=
  { chrom := "1", position := 100,
    child := { info := ["DENOVO-SNP"], pp_dnm := some 1, team29_filter := some "PASS",
               genotype := 1 },
    mother_genotype := some 0, father_genotype := some 0,
    inheritance_type := "autosomal" }

/-- A small get_genes assignment: variant 1 overlaps genes A and B,
variant 2 overlaps gene B and has one missing symbol, variant 3 is
gene-less. -/
def c8_genes : Nat → List (Option String) := fun n =>
  if n = 1 then [some "A", some "B"]
  else if n = 2 then [some "B", none]
  else []

/-- A store of six list objects: the three lists of each of two candidate
tuples. -/
def store_c10 : Store := [["a"], [], ["g1"], ["b"], [], ["g2"]]

/-- Two candidate tuples with the same record key 7, referring to the six
store addresses in order. -/
def vs_c10 : List CandRef := [⟨7, 0, 1, 2⟩, ⟨7, 3, 4, 5⟩]

/-! ## Association-list lemmas -/

lemma alookup_isSome_iff {κ α : Type} [DecidableEq κ] (acc : List (κ × α)) (k : κ) :
    (alookup acc k).isSome = true ↔ k ∈ acc.map Prod.fst := by
  induction acc with
  | nil => simp [alookup]
  | cons p rest ih =>
    obtain ⟨k2, v⟩ := p
    by_cases h : k = k2 <;> simp [alookup, h, ih]

lemma alookup_mem {κ α : Type} [DecidableEq κ] :
    ∀ (acc : List (κ × α)) (k : κ) (c : α), alookup acc k = some c → (k, c) ∈ acc := by
  intro acc
  induction acc with
  | nil => intro k c h; cases h
  | cons p rest ih =>
    intro k c h
    obtain ⟨k2, v⟩ := p
    by_cases hk : k = k2
    · subst hk
      simp only [alookup, if_pos rfl] at h
      cases h
      exact List.mem_cons_self _ _
    · simp only [alookup, if_neg hk] at h
      exact List.mem_cons_of_mem _ (ih k c h)

lemma alookup_map_value_update {κ α : Type} [DecidableEq κ]
    (acc : List (κ × α)) (h : κ) (f : α → α) (g : κ) :
    alookup (acc.map (fun p => if p.1 = h then (p.1, f p.2) else p)) g =
      if g = h then (alookup acc g).map f else alookup acc g := by
  induction acc with
  | nil => simp [alookup]
  | cons p rest ih =>
    obtain ⟨k, v⟩ := p
    show alookup ((if k = h then (k, f v) else (k, v)) ::
      rest.map (fun p => if p.1 = h then (p.1, f p.2) else p)) g = _
    by_cases hk : k = h
    · rw [if_pos hk]
      by_cases hg : g = k
      · have hgh : g = h := hk ▸ hg
        simp [alookup, hg, hgh]
        rw [if_pos hk]
      · have hstep : alookup ((k, f v) ::
            rest.map (fun p => if p.1 = h then (p.1, f p.2) else p)) g =
            alookup (rest.map (fun p => if p.1 = h then (p.1, f p.2) else p)) g := by
          simp [alookup, hg]
        rw [hstep, ih]
        by_cases hgh : g = h
        · rw [if_pos hgh, if_pos hgh]
          simp [alookup, hg]
        · rw [if_neg hgh, if_neg hgh]
          simp [alookup, hg]
    · rw [if_neg hk]
      by_cases hg : g = k
      · have hgh : ¬ g = h := by
          rw [hg]
          exact hk
        simp [alookup, hg, hgh]
        rw [if_neg hk]
      · simp only [alookup, if_neg hg, ih]

lemma alookup_append {κ α : Type} [DecidableEq κ] (l1 l2 : List (κ × α)) (k : κ) :
    alookup (l1 ++ l2) k =
      match alookup l1 k with
      | some v => some v
      | none => alookup l2 k := by
  induction l1 with
  | nil => simp [alookup]
  | cons p rest ih =>
    obtain ⟨k2, v⟩ := p
    by_cases h : k = k2 <;> simp [alookup, h, ih]

/-! ## Lemmas on the value-level exclude_duplicates -/

lemma spec_merge_cons {ρ κ : Type} [DecidableEq κ] (K : ρ → κ)
    (v : Candidate ρ) (rest : List (Candidate ρ)) :
    spec_merge K (v :: rest) =
      merge_group v (rest.filter (fun w => decide (K w.record = K v.record))) ::
        spec_merge K (rest.filter (fun w => decide (¬ K w.record = K v.record))) := by
  rw [spec_merge]

lemma merge_group_record {ρ : Type} (ds : List (Candidate ρ)) : ∀ c : Candidate ρ,
    (merge_group c ds).record = c.record := by
  induction ds with
  | nil => intro c; rfl
  | cons d ds ih =>
    intro c
    show (merge_group (merge_cand c d) ds).record = c.record
    rw [ih (merge_cand c d)]
    rfl

lemma foldl_upsert_spec {ρ κ : Type} [DecidableEq κ] (K : ρ → κ) :
    ∀ (vs : List (Candidate ρ)) (acc : List (κ × Candidate ρ)),
    (vs.foldl (upsert K) acc).map Prod.snd =
      acc.map (fun p => merge_group p.2 (vs.filter (fun w => decide (K w.record = p.1)))) ++
        spec_merge K (vs.filter (fun w => decide (K w.record ∉ acc.map Prod.fst))) := by
  intro vs
  induction vs with
  | nil =>
    intro acc
    simp [spec_merge, merge_group]
  | cons v rest ih =>
    intro acc
    rw [List.foldl_cons, ih]
    by_cases h : (alookup acc (K v.record)).isSome = true
    · -- the key is already present: upsert merges in place
      have hker : K v.record ∈ acc.map Prod.fst := (alookup_isSome_iff acc _).mp h
      have hup : upsert K acc v =
          acc.map (fun p => if p.1 = K v.record then (p.1, merge_cand p.2 v) else p) := by
        unfold upsert
        rw [if_pos h]
      rw [hup]
      have hkeys : (acc.map (fun p => if p.1 = K v.record then (p.1, merge_cand p.2 v) else p)).map
          Prod.fst = acc.map Prod.fst := by
        rw [List.map_map]
        apply List.map_congr_left
        intro p _
        by_cases hp : p.1 = K v.record <;> simp [hp]
      rw [hkeys]
      congr 1
      · rw [List.map_map]
        apply List.map_congr_left
        intro p hp
        by_cases hpk : p.1 = K v.record
        · simp only [Function.comp_apply, if_pos hpk, List.filter_cons]
          have hd : (decide (K v.record = p.1)) = true := by simp [hpk]
          rw [hd]
          simp only [if_pos]
          rfl
        · simp only [Function.comp_apply, if_neg hpk, List.filter_cons]
          have hd : (decide (K v.record = p.1)) = false := by
            simp
            intro hc
            exact hpk hc.symm
          rw [hd]
          simp only [Bool.false_eq_true, if_neg]
          rfl
      · congr 1
        rw [List.filter_cons]
        have hd : (decide (K v.record ∉ acc.map Prod.fst)) = false := by simp [hker]
        rw [hd]
        simp
    · -- new key: upsert appends
      have hker : K v.record ∉ acc.map Prod.fst := by
        intro hc
        exact h ((alookup_isSome_iff acc _).mpr hc)
      have hup : upsert K acc v = acc ++ [(K v.record, v)] := by
        unfold upsert
        rw [if_neg h]
      rw [hup]
      rw [List.map_append, List.map_append]
      have hfv : ((v :: rest).filter (fun w => decide (K w.record ∉ acc.map Prod.fst))) =
          v :: rest.filter (fun w => decide (K w.record ∉ acc.map Prod.fst)) := by
        rw [List.filter_cons]
        simp [hker]
      rw [hfv, spec_merge_cons]
      have hsame : ((rest.filter (fun w => decide (K w.record ∉ acc.map Prod.fst))).filter
            (fun w => decide (K w.record = K v.record))) =
          rest.filter (fun w => decide (K w.record = K v.record)) := by
        rw [List.filter_filter]
        apply List.filter_congr
        intro w _
        by_cases hw : K w.record = K v.record
        · simp [hw, hker]
        · simp [hw]
      have hdiff : ((rest.filter (fun w => decide (K w.record ∉ acc.map Prod.fst))).filter
            (fun w => decide (¬ K w.record = K v.record))) =
          rest.filter (fun w => decide (K w.record ∉ (acc.map Prod.fst ++ [K v.record]))) := by
        rw [List.filter_filter]
        apply List.filter_congr
        intro w _
        by_cases hw : K w.record = K v.record <;> by_cases hm : K w.record ∈ acc.map Prod.fst <;>
          simp [hw, hm]
      rw [hsame, hdiff]
      simp only [List.map_cons, List.map_nil]
      rw [List.append_assoc]
      simp only [List.singleton_append]
      congr 1
      apply List.map_congr_left
      intro p hp
      rw [List.filter_cons]
      have hvp : (decide (K v.record = p.1)) = false := by
        simp only [decide_eq_false_iff_not]
        intro hc
        apply hker
        rw [hc]
        exact List.mem_map_of_mem Prod.fst hp
      rw [hvp]
      simp

lemma exclude_eq_spec_merge {ρ κ : Type} [DecidableEq κ] (K : ρ → κ)
    (vs : List (Candidate ρ)) :
    exclude_duplicates K vs = spec_merge K vs := by
  unfold exclude_duplicates
  rw [foldl_upsert_spec]
  simp

lemma mem_keys_spec_merge {ρ κ : Type} [DecidableEq κ] (K : ρ → κ) :
    ∀ (vs : List (Candidate ρ)) (k : κ),
      k ∈ (spec_merge K vs).map (fun c => K c.record) → k ∈ vs.map (fun c => K c.record)
  | [], k => by simp [spec_merge]
  | v :: rest, k => by
    rw [spec_merge_cons]
    intro hk
    simp only [List.map_cons, List.mem_cons] at hk ⊢
    rcases hk with hk | hk
    · left
      rw [hk, merge_group_record]
    · right
      have hrec := mem_keys_spec_merge K
        (rest.filter (fun w => decide (¬ K w.record = K v.record))) k hk
      simp only [List.mem_map] at hrec ⊢
      obtain ⟨c, hc, hck⟩ := hrec
      exact ⟨c, List.mem_of_mem_filter hc, hck⟩
termination_by vs => vs.length
decreasing_by
  simp only [List.length_cons]
  exact Nat.lt_succ_of_le (List.length_filter_le _ _)

lemma keys_nodup_spec_merge {ρ κ : Type} [DecidableEq κ] (K : ρ → κ) :
    ∀ (vs : List (Candidate ρ)),
      ((spec_merge K vs).map (fun c => K c.record)).Nodup
  | [] => by simp [spec_merge]
  | v :: rest => by
    rw [spec_merge_cons]
    simp only [List.map_cons, List.nodup_cons]
    constructor
    · rw [merge_group_record]
      intro hmem
      have hks := mem_keys_spec_merge K _ _ hmem
      simp only [List.mem_map] at hks
      obtain ⟨c, hc, hck⟩ := hks
      have hfl := List.of_mem_filter hc
      simp only [decide_eq_true_eq] at hfl
      exact hfl hck
    · exact keys_nodup_spec_merge K _
termination_by vs => vs.length
decreasing_by
  simp only [List.length_cons]
  exact Nat.lt_succ_of_le (List.length_filter_le _ _)

lemma mem_keys_spec_merge_rev {ρ κ : Type} [DecidableEq κ] (K : ρ → κ) :
    ∀ (vs : List (Candidate ρ)) (k : κ),
      k ∈ vs.map (fun c => K c.record) → k ∈ (spec_merge K vs).map (fun c => K c.record)
  | [], k => by simp
  | v :: rest, k => by
    intro hk
    rw [spec_merge_cons]
    simp only [List.map_cons, List.mem_cons, merge_group_record]
    by_cases hv : k = K v.record
    · left
      exact hv
    · right
      simp only [List.map_cons, List.mem_cons] at hk
      rcases hk with hk | hk
      · exact absurd hk hv
      · apply mem_keys_spec_merge_rev
        simp only [List.mem_map] at hk ⊢
        obtain ⟨c, hc, hck⟩ := hk
        refine ⟨c, List.mem_filter.mpr ⟨hc, ?_⟩, hck⟩
        simp only [decide_eq_true_eq]
        intro hcv
        exact hv (hck ▸ hcv ▸ rfl)
termination_by vs => vs.length
decreasing_by
  simp only [List.length_cons]
  exact Nat.lt_succ_of_le (List.length_filter_le _ _)

lemma spec_merge_of_keys_nodup {ρ κ : Type} [DecidableEq κ] (K : ρ → κ) :
    ∀ (vs : List (Candidate ρ)),
      (vs.map (fun c => K c.record)).Nodup → spec_merge K vs = vs
  | [] => by
    intro _
    rw [spec_merge]
  | v :: rest => by
    intro h
    rw [spec_merge_cons]
    simp only [List.map_cons, List.nodup_cons] at h
    have hsame : rest.filter (fun w => decide (K w.record = K v.record)) = [] := by
      rw [List.filter_eq_nil_iff]
      intro w hw
      simp only [decide_eq_true_eq]
      intro hc
      exact h.1 (by simp only [List.mem_map]; exact ⟨w, hw, hc⟩)
    have hdiff : rest.filter (fun w => decide (¬ K w.record = K v.record)) = rest := by
      rw [List.filter_eq_self]
      intro w hw
      simp only [decide_eq_true_eq]
      intro hc
      exact h.1 (by simp only [List.mem_map]; exact ⟨w, hw, hc⟩)
    rw [hsame, hdiff]
    show merge_group v [] :: spec_merge K rest = v :: rest
    rw [spec_merge_of_keys_nodup K rest h.2]
    rfl

lemma new_only_disjoint (old extra : List String) :
    old.Disjoint (new_only old extra) := by
  intro x hx hmem
  have hfl := List.of_mem_filter hmem
  simp only [decide_eq_true_eq] at hfl
  exact hfl hx

lemma merge_cand_all_nodup {ρ : Type} (c d : Candidate ρ)
    (hc : AllNodup c) (hd : AllNodup d) : AllNodup (merge_cand c d) := by
  obtain ⟨hc1, hc2, hc3⟩ := hc
  obtain ⟨hd1, hd2, hd3⟩ := hd
  refine ⟨?_, ?_, ?_⟩ <;>
    exact List.Nodup.append (by assumption) (List.Nodup.filter _ (by assumption))
      (new_only_disjoint _ _)

lemma merge_group_all_nodup {ρ : Type} (ds : List (Candidate ρ)) :
    ∀ c : Candidate ρ, AllNodup c → (∀ d ∈ ds, AllNodup d) →
    AllNodup (merge_group c ds) := by
  induction ds with
  | nil => intro c hc _; exact hc
  | cons d ds ih =>
    intro c hc hds
    show AllNodup (merge_group (merge_cand c d) ds)
    exact ih _ (merge_cand_all_nodup c d hc (hds d (by simp)))
      (fun e he => hds e (by simp [he]))

lemma spec_merge_all_nodup {ρ κ : Type} [DecidableEq κ] (K : ρ → κ) :
    ∀ (vs : List (Candidate ρ)), (∀ v ∈ vs, AllNodup v) →
      ∀ c ∈ spec_merge K vs, AllNodup c
  | [] => by
    intro _ c hc
    rw [spec_merge] at hc
    cases hc
  | v :: rest => by
    intro hall c hc
    rw [spec_merge_cons] at hc
    rcases List.mem_cons.mp hc with hc | hc
    · subst hc
      exact merge_group_all_nodup _ v (hall v (by simp))
        (fun d hd => hall d (by simp [List.mem_of_mem_filter hd]))
    · exact spec_merge_all_nodup K _
        (fun w hw => hall w (by simp [List.mem_of_mem_filter hw])) c hc
termination_by vs => vs.length
decreasing_by
  simp only [List.length_cons]
  exact Nat.lt_succ_of_le (List.length_filter_le _ _)

/-! ## Lemmas on create_gene_dict -/

lemma bucket_bucket_add {α : Type} (acc : List (Option String × List α))
    (g h : Option String) (v : α) :
    bucket (bucket_add acc h v) g =
      if g = h then bucket acc g ++ [v] else bucket acc g := by
  unfold bucket bucket_add
  by_cases hs : (alookup acc h).isSome = true
  · rw [if_pos hs, alookup_map_value_update acc h (fun l => l ++ [v]) g]
    by_cases hg : g = h
    · subst hg
      rw [if_pos rfl, if_pos rfl]
      obtain ⟨l, hl⟩ := Option.isSome_iff_exists.mp hs
      rw [hl]
      rfl
    · rw [if_neg hg, if_neg hg]
  · rw [if_neg hs, alookup_append]
    by_cases hg : g = h
    · subst hg
      have hnone : alookup acc g = none := Option.not_isSome_iff_eq_none.mp hs
      rw [hnone]
      simp [alookup, if_pos rfl]
    · cases hx : alookup acc g with
      | none => simp [alookup, hx, hg]
      | some l => simp [alookup, hx, hg]

lemma bucket_gene_fold {α : Type} :
    ∀ (gs : List (Option String)) (acc : List (Option String × List α)) (var : α)
      (g : Option String), gs.Nodup →
    bucket (gs.foldl (fun a h => bucket_add a h var) acc) g =
      bucket acc g ++ (if g ∈ gs then [var] else []) := by
  intro gs
  induction gs with
  | nil => intro acc var g _; simp
  | cons h rest ih =>
    intro acc var g hnd
    rw [List.foldl_cons]
    rw [ih (bucket_add acc h var) var g (List.nodup_cons.mp hnd).2]
    rw [bucket_bucket_add]
    by_cases hg : g = h
    · subst hg
      rw [if_pos rfl]
      have hni : g ∉ rest := (List.nodup_cons.mp hnd).1
      simp [hni]
    · rw [if_neg hg]
      by_cases hr : g ∈ rest <;> simp [hr, hg]

lemma bucket_create_fold {α : Type} (getGenes : α → List (Option String)) :
    ∀ (vs : List α) (acc : List (Option String × List α)) (g : Option String),
      (∀ v ∈ vs, (getGenes v).Nodup) →
    bucket (vs.foldl (fun acc var =>
        (getGenes var).foldl (fun a h => bucket_add a h var) acc) acc) g =
      bucket acc g ++ vs.filter (fun v => decide (g ∈ getGenes v)) := by
  intro vs
  induction vs with
  | nil => intro acc g _; simp
  | cons v rest ih =>
    intro acc g hnd
    rw [List.foldl_cons]
    rw [ih _ g (fun w hw => hnd w (by simp [hw]))]
    rw [bucket_gene_fold (getGenes v) acc v g (hnd v (by simp))]
    rw [List.filter_cons]
    by_cases hg : g ∈ getGenes v <;> simp [hg]

/-! ## Lemmas on the heap-level exclude_duplicates -/

lemma sread_swrite_ne (σ : Store) (r1 r2 : Nat) (v : List String) (h : r1 ≠ r2) :
    sread (swrite σ r2 v) r1 = sread σ r1 := by
  unfold sread swrite
  rw [List.getD_eq_getElem?_getD, List.getD_eq_getElem?_getD]
  rw [List.getElem?_set_ne (fun hc => h hc.symm)]

lemma first_occs_from_congr :
    ∀ (vs : List CandRef) (s1 s2 : List Nat),
      (∀ k, k ∈ s1 ↔ k ∈ s2) → first_occs_from s1 vs = first_occs_from s2 vs := by
  intro vs
  induction vs with
  | nil => intro _ _ _; rfl
  | cons v rest ih =>
    intro s1 s2 hiff
    unfold first_occs_from
    by_cases h : v.key ∈ s1
    · rw [if_pos h, if_pos ((hiff _).mp h), ih s1 s2 hiff]
    · rw [if_neg h, if_neg (fun hc => h ((hiff _).mpr hc))]
      rw [ih (v.key :: s1) (v.key :: s2) (by intro k; simp [hiff k])]

lemma merge_step_some (σ : Store) (acc : List (Nat × CandRef)) (v c : CandRef)
    (halk : alookup acc v.key = some c) :
    (merge_step σ acc v).2 = acc ∧
    ∀ r, r ≠ c.checks → r ≠ c.inh → r ≠ c.genes →
      sread (merge_step σ acc v).1 r = sread σ r := by
  unfold merge_step
  rw [halk]
  refine ⟨rfl, ?_⟩
  intro r h1 h2 h3
  simp only
  rw [sread_swrite_ne _ _ _ _ h3, sread_swrite_ne _ _ _ _ h2,
    sread_swrite_ne _ _ _ _ h1]

lemma merge_step_none (σ : Store) (acc : List (Nat × CandRef)) (v : CandRef)
    (halk : alookup acc v.key = none) :
    merge_step σ acc v = (σ, acc ++ [(v.key, v)]) := by
  unfold merge_step
  rw [halk]

lemma foldl_merge_frame :
    ∀ (vs : List CandRef) (σ : Store) (acc : List (Nat × CandRef)) (r : Nat),
      (∀ p ∈ acc, r ≠ p.2.checks ∧ r ≠ p.2.inh ∧ r ≠ p.2.genes) →
      (∀ c ∈ first_occs_from (acc.map Prod.fst) vs,
        r ≠ c.checks ∧ r ≠ c.inh ∧ r ≠ c.genes) →
      sread (vs.foldl (fun p v => merge_step p.1 p.2 v) (σ, acc)).1 r = sread σ r := by
  intro vs
  induction vs with
  | nil => intro σ acc r _ _; rfl
  | cons v rest ih =>
    intro σ acc r hacc hfo
    rw [List.foldl_cons]
    cases halk : alookup acc v.key with
    | some c =>
      obtain ⟨hsnd, hfst⟩ := merge_step_some σ acc v c halk
      have hmem : (v.key, c) ∈ acc := alookup_mem acc v.key c halk
      obtain ⟨h1, h2, h3⟩ := hacc _ hmem
      have hkeys : v.key ∈ acc.map Prod.fst := by
        have hmm := List.mem_map_of_mem Prod.fst hmem
        simpa using hmm
      have hfo2 : ∀ d ∈ first_occs_from (acc.map Prod.fst) rest,
          r ≠ d.checks ∧ r ≠ d.inh ∧ r ≠ d.genes := by
        intro d hd
        apply hfo
        unfold first_occs_from
        rw [if_pos hkeys]
        exact hd
      rw [← Prod.mk.eta (p := merge_step σ acc v), hsnd]
      rw [ih _ acc r hacc hfo2]
      exact hfst r h1 h2 h3
    | none =>
      have hkeys : v.key ∉ acc.map Prod.fst := by
        intro hc
        have hs := (alookup_isSome_iff acc v.key).mpr hc
        rw [halk] at hs
        cases hs
      unfold first_occs_from at hfo
      rw [if_neg hkeys] at hfo
      rw [merge_step_none σ acc v halk]
      rw [ih σ (acc ++ [(v.key, v)]) r ?_ ?_]
      · intro p hp
        rcases List.mem_append.mp hp with hp | hp
        · exact hacc _ hp
        · have hpv : p = (v.key, v) := by simpa using hp
          subst hpv
          exact hfo v (List.mem_cons_self _ _)
      · intro d hd
        apply hfo
        apply List.mem_cons_of_mem
        rw [first_occs_from_congr rest ((acc ++ [(v.key, v)]).map Prod.fst)
          (v.key :: acc.map Prod.fst) (by intro k; simp; tauto)] at hd
        exact hd

/-! ## Claim theorems -/

/-- C1: refuted as stated; the code is the defect.  For a gene present in
the known_genes mapping produced by open_known_genes, find_variants does
not complete: open_known_genes stores the inheritance modes under the
dict key named inheritance, while find_variants (filter.py line 171)
evaluates known_genes to the key named inh, so the lookup raises
KeyError and aborts the trio, contradicting the no-abort contract.  The
theorem evaluates the code at a one-row gene table: the loader succeeds,
the gene is in the panel, and find_variants errors for every classifier
pair and every variant list. -/
theorem find_variants_panel_gene_keyerror : ∃ kg,
    open_known_genes fsC1 (some "genes.txt") = .ok kg ∧
    (alookup kg "TEST1").isSome = true ∧
    ∀ (auto allo : List FVVariant → List (FVVariant × List String × List String))
      (vars : List FVVariant),
      find_variants (some kg) auto allo vars (some "TEST1") = .error (.keyError "inh") := by
  refine ⟨_, rfl, rfl, fun _ _ _ => rfl⟩

/-- C2: refuted as stated; the code is the defect.  A Filter constructed
with known_genes None and regions None does not succeed: the comment at
filter.py line 68 promises the loaders return None for None paths, but
the load_files module under src/ opens the path unconditionally, and
io.open applied to None raises TypeError (which the retry loop does not
catch), so construction raises for every filesystem. -/
theorem filter_init_none_paths_raise : ∀ (fs : FileSystem),
    filter_init fs none none none = .error .typeError := fun _ => rfl

/-- C3 counterexample: the claim says get_de_novo_genotype returns
(2, 0, 0) for y_in_male records, but on a YChrMale record the code takes
the default branch and returns (1, 0, 0), which differs from (2, 0, 0). -/
theorem get_de_novo_genotype_y_in_male_cex :
    get_de_novo_genotype tgYChrMale = (1, 0, 0) ∧
    ((1, 0, 0) : Nat × Nat × Nat) ≠ (2, 0, 0) := by
  exact ⟨rfl, by decide⟩

/-- C3 amended: get_de_novo_genotype returns (2, 0, 0) exactly for
x_in_male records and (1, 0, 0) for every other inheritance category,
y_in_male included; consequently, on an x_in_male locus a trio genotype
of (1, 0, 0) differs from the expected de novo combination and
passes_de_novo_checks returns true without consulting the de novo
markers. -/
theorem get_de_novo_genotype_by_category (t : TrioGenotypes) :
    (t.inheritance_type = "XChrMale" → get_de_novo_genotype t = (2, 0, 0)) ∧
    (¬ t.inheritance_type = "XChrMale" → get_de_novo_genotype t = (1, 0, 0)) ∧
    (∀ pp : Rat, t.inheritance_type = "XChrMale" →
      get_trio_genotype t = (1, some 0, some 0) →
      passes_de_novo_checks t pp = true) := by
  refine ⟨?_, ?_, ?_⟩
  · intro h
    simp [get_de_novo_genotype, h]
  · intro h
    simp [get_de_novo_genotype, h]
  · intro pp h hg
    have hd : get_de_novo_genotype t = (2, 0, 0) := by simp [get_de_novo_genotype, h]
    simp [passes_de_novo_checks, hg, hd, trio_matches]

/-- Witness for the amended C3 theorem at the two concrete records. -/
theorem get_de_novo_genotype_by_category_wit :
    get_de_novo_genotype tgYChrMale = (1, 0, 0) ∧
    get_de_novo_genotype tgXChrMale = (2, 0, 0) :=
  ⟨(get_de_novo_genotype_by_category tgYChrMale).2.1 (by decide),
   (get_de_novo_genotype_by_category tgXChrMale).1 rfl⟩

/-- C4: check_compound_inheritance passes iff the DDG2P route or the size
route succeeds, the size route needs nonzero copy number (copy number 0
fails it regardless of size, leaving only the DDG2P route) and SVLEN
strictly above 1,000,000 bp, or strictly above 500,000 bp in the
hemizygous context; each route alone suffices. -/
theorem check_compound_inheritance_either_route (d : Bool) (c : Nat) (s : Int) (h : Bool) :
    (check_compound_inheritance d c s h = true ↔
      (d = true ∨ (c ≠ 0 ∧ s > (if h then (500000 : Int) else 1000000)))) ∧
    (c = 0 → check_compound_inheritance d c s h = d) ∧
    (d = true → check_compound_inheritance d c s h = true) ∧
    (c ≠ 0 → s > (if h then (500000 : Int) else 1000000) →
      check_compound_inheritance d c s h = true) := by
  unfold check_compound_inheritance
  refine ⟨?_, ?_, ?_, ?_⟩
  · simp
  · intro hc
    subst hc
    simp
  · intro hd
    subst hd
    simp
  · intro h1 h2
    simp [h1, h2]

/-- Witness for C4 at concrete route inputs: copy number 0 falls back to
the DDG2P route alone, and each size threshold is exceeded by one. -/
theorem check_compound_inheritance_either_route_wit :
    check_compound_inheritance false 0 2000000 false = false ∧
    check_compound_inheritance false 3 1000001 false = true ∧
    check_compound_inheritance false 3 500001 true = true :=
  ⟨(check_compound_inheritance_either_route false 0 2000000 false).2.1 rfl,
   (check_compound_inheritance_either_route false 3 1000001 false).2.2.2
     (by decide) (by decide),
   (check_compound_inheritance_either_route false 3 500001 true).2.2.2
     (by decide) (by decide)⟩

/-- C5: for every record and pp_filter in the unit interval,
passes_de_novo_checks returns true whenever the trio genotype differs
from the expected de novo combination; when they coincide it returns
true iff the child INFO carries DENOVO-SNP or DENOVO-INDEL, a present
PP_DNM is at least pp_filter, and a present TEAM29_FILTER equals PASS. -/
theorem passes_de_novo_checks_gate (t : TrioGenotypes) (pp : Rat)
    (h0 : 0 ≤ pp) (h1 : pp ≤ 1) :
    (trio_matches (get_trio_genotype t) (get_de_novo_genotype t) = false →
      passes_de_novo_checks t pp = true) ∧
    (trio_matches (get_trio_genotype t) (get_de_novo_genotype t) = true →
      (passes_de_novo_checks t pp = true ↔
        (("DENOVO-SNP" ∈ t.child.info ∨ "DENOVO-INDEL" ∈ t.child.info) ∧
         (∀ p, t.child.pp_dnm = some p → pp ≤ p) ∧
         (∀ v, t.child.team29_filter = some v → v = "PASS")))) := by
  constructor
  · intro h
    simp [passes_de_novo_checks, h]
  · intro h
    simp only [passes_de_novo_checks, h]
    rcases hpp : t.child.pp_dnm with _ | p <;>
      rcases ht : t.child.team29_filter with _ | v <;>
        simp [not_lt]

/-- Witness for C5 at a concrete de novo record with all gates passing and
threshold 1. -/
theorem passes_de_novo_checks_gate_wit : passes_de_novo_checks tgDeNovo 1 = true := by
  have h := (passes_de_novo_checks_gate tgDeNovo 1 (by norm_num) (le_refl 1)).2 (by decide)
  apply h.mpr
  refine ⟨Or.inl (by decide), ?_, ?_⟩
  · intro p hp
    have h1 : some (1 : Rat) = some p := hp
    injection h1 with h2
    rw [← h2]
  · intro v hv
    have h1 : some "PASS" = some v := hv
    injection h1 with h2
    rw [← h2]

/-- C6: exclude_duplicates produces exactly one candidate per distinct
record identity key, equal to the spec-side merge in which the first
occurrence of each key is canonical and later occurrences contribute only
the check types, inheritance tags and gene symbols not already present,
in first-seen order; output keys are duplicate-free and cover exactly the
input keys, and duplicate-free input lists stay duplicate-free. -/
theorem exclude_duplicates_one_per_key {ρ κ : Type} [DecidableEq κ]
    (K : ρ → κ) (vs : List (Candidate ρ)) :
    exclude_duplicates K vs = spec_merge K vs ∧
    ((exclude_duplicates K vs).map (fun c => K c.record)).Nodup ∧
    (∀ k, k ∈ (exclude_duplicates K vs).map (fun c => K c.record) ↔
      k ∈ vs.map (fun c => K c.record)) ∧
    ((∀ v ∈ vs, AllNodup v) → ∀ c ∈ exclude_duplicates K vs, AllNodup c) := by
  have he := exclude_eq_spec_merge K vs
  refine ⟨he, ?_, ?_, ?_⟩
  · rw [he]
    exact keys_nodup_spec_merge K vs
  · intro k
    rw [he]
    exact ⟨mem_keys_spec_merge K vs k, mem_keys_spec_merge_rev K vs k⟩
  · intro h c hc
    rw [he] at hc
    exact spec_merge_all_nodup K vs h c hc

/-- Witness for C6: two same-key candidates merge into one, and the
duplicate-freeness hypothesis is discharged on the concrete input. -/
theorem exclude_duplicates_one_per_key_wit :
    exclude_duplicates (fun r : Nat => r)
      [⟨1, ["compound_het"], ["Biallelic"], ["G1"]⟩,
       ⟨1, ["single_variant"], ["Biallelic"], ["G2"]⟩] =
      [⟨1, ["compound_het", "single_variant"], ["Biallelic"], ["G1", "G2"]⟩] ∧
    ∀ c ∈ exclude_duplicates (fun r : Nat => r)
      [⟨1, ["compound_het"], ["Biallelic"], ["G1"]⟩,
       ⟨1, ["single_variant"], ["Biallelic"], ["G2"]⟩], AllNodup c := by
  constructor
  · decide
  · exact (exclude_duplicates_one_per_key (fun r : Nat => r) _).2.2.2 (by decide)

/-- C7: exclude_duplicates is idempotent: merging its own output again
returns the output unchanged, for every candidate list and key
function. -/
theorem exclude_duplicates_idempotent {ρ κ : Type} [DecidableEq κ]
    (K : ρ → κ) (vs : List (Candidate ρ)) :
    exclude_duplicates K (exclude_duplicates K vs) = exclude_duplicates K vs := by
  rw [exclude_eq_spec_merge K vs, exclude_eq_spec_merge]
  exact spec_merge_of_keys_nodup K _ (keys_nodup_spec_merge K _)

/-- C8: for variants whose gene lists are duplicate-free (the data model
declares them ordered sets), every bucket of create_gene_dict is exactly
the ordered subsequence of input variants whose gene list contains that
gene symbol, each variant unchanged; a multi-gene variant therefore lands
in every one of its genes' buckets and a variant with a missing symbol
lands in the bucket for none. -/
theorem create_gene_dict_buckets {α : Type} (getGenes : α → List (Option String))
    (vs : List α) (hnd : ∀ v ∈ vs, (getGenes v).Nodup) (g : Option String) :
    bucket (create_gene_dict getGenes vs) g =
      vs.filter (fun v => decide (g ∈ getGenes v)) := by
  unfold create_gene_dict
  rw [bucket_create_fold getGenes vs [] g hnd]
  simp [bucket, alookup]

/-- Witness for C8: buckets of a three-variant input, including the
bucket for a missing gene symbol. -/
theorem create_gene_dict_buckets_wit :
    bucket (create_gene_dict c8_genes [1, 2, 3]) (some "B") = [1, 2] ∧
    bucket (create_gene_dict c8_genes [1, 2, 3]) none = [2] := by
  constructor
  · rw [create_gene_dict_buckets c8_genes [1, 2, 3] (by decide) (some "B")]
    decide
  · rw [create_gene_dict_buckets c8_genes [1, 2, 3] (by decide) none]
    decide

/-- C9: chrom_to_int maps every casing of X (with or without a chr
prefix) to 23, of Y to 24 and of MT to 25; records at equal positions on
chrX and X compare equal; every sex chromosome orders strictly above the
numeric chromosomes 1 to 22 at any positions; equality is exactly
equality of the (chromosome integer, position) pair; and the ordering is
total: any two records with valid chromosome strings satisfy exactly one
of less-than, equal, greater-than. -/
theorem chrom_ordering_total_consistent :
    (∀ s ∈ x_forms, chrom_to_int s = some 23) ∧
    (∀ s ∈ y_forms, chrom_to_int s = some 24) ∧
    (∀ s ∈ mt_forms, chrom_to_int s = some 25) ∧
    (∀ (p : Nat), ∀ c1 ∈ x_forms, ∀ c2 ∈ x_forms,
      tg_eq (mkRecord c1 p) (mkRecord c2 p) = some true) ∧
    (∀ (p q : Nat), ∀ n ∈ numeric_chroms, ∀ s ∈ sex_forms,
      tg_lt (mkRecord n p) (mkRecord s q) = some true) ∧
    (∀ (a b : TrioGenotypes) (ka kb : Nat × Nat),
      tg_key a = some ka → tg_key b = some kb →
      (tg_eq a b = some true ↔ ka = kb)) ∧
    (∀ (a b : TrioGenotypes),
      (tg_key a).isSome = true → (tg_key b).isSome = true →
      (tg_eq a b = some true ∧ tg_lt a b = some false ∧ tg_lt b a = some false) ∨
      (tg_lt a b = some true ∧ tg_eq a b = some false ∧ tg_lt b a = some false) ∨
      (tg_lt b a = some true ∧ tg_eq a b = some false ∧ tg_lt a b = some false)) := by
  have hx : ∀ s ∈ x_forms, chrom_to_int s = some 23 := by decide
  have hy : ∀ s ∈ y_forms, chrom_to_int s = some 24 := by decide
  have hmt : ∀ s ∈ mt_forms, chrom_to_int s = some 25 := by decide
  have hnum : ∀ n ∈ numeric_chroms,
      (chrom_to_int n).isSome = true ∧ (chrom_to_int n).getD 0 < 23 := by decide
  refine ⟨hx, hy, hmt, ?_, ?_, ?_, ?_⟩
  · intro p c1 h1 c2 h2
    simp [tg_eq, tg_key, mkRecord, hx c1 h1, hx c2 h2]
  · intro p q n hn s hs
    obtain ⟨hsome, hlt⟩ := hnum n hn
    obtain ⟨v, hv⟩ := Option.isSome_iff_exists.mp hsome
    have hwv : ∃ w, chrom_to_int s = some w ∧ 23 ≤ w := by
      rcases List.mem_append.mp hs with hs1 | hs2
      · rcases List.mem_append.mp hs1 with h | h
        · exact ⟨23, hx s h, le_refl 23⟩
        · exact ⟨24, hy s h, by norm_num⟩
      · exact ⟨25, hmt s hs2, by norm_num⟩
    obtain ⟨w, hw, hw23⟩ := hwv
    have hvlt : v < w := by
      rw [hv] at hlt
      simp at hlt
      omega
    simp [tg_lt, tg_key, mkRecord, hv, hw, hvlt]
  · intro a b ka kb ha hb
    simp [tg_eq, ha, hb]
  · intro a b ha hb
    obtain ⟨ka, hka⟩ := Option.isSome_iff_exists.mp ha
    obtain ⟨kb, hkb⟩ := Option.isSome_iff_exists.mp hb
    obtain ⟨k1, p1⟩ := ka
    obtain ⟨k2, p2⟩ := kb
    simp only [tg_eq, tg_lt, hka, hkb]
    rcases Nat.lt_trichotomy k1 k2 with h | h | h
    · right; left
      refine ⟨?_, ?_, ?_⟩ <;> simp [Prod.ext_iff] <;> omega
    · rcases Nat.lt_trichotomy p1 p2 with hp | hp | hp
      · right; left
        refine ⟨?_, ?_, ?_⟩ <;> simp [Prod.ext_iff] <;> omega
      · left
        refine ⟨?_, ?_, ?_⟩ <;> simp [Prod.ext_iff] <;> omega
      · right; right
        refine ⟨?_, ?_, ?_⟩ <;> simp [Prod.ext_iff] <;> omega
    · right; right
      refine ⟨?_, ?_, ?_⟩ <;> simp [Prod.ext_iff] <;> omega

/-- Witness for C9: the X mapping at the spelling chrX and the equality of
same-position records on chrX and X. -/
theorem chrom_ordering_total_consistent_wit :
    chrom_to_int "chrX" = some 23 ∧
    tg_eq (mkRecord "chrX" 500) (mkRecord "X" 500) = some true :=
  ⟨chrom_ordering_total_consistent.1 "chrX" (by decide),
   chrom_ordering_total_consistent.2.2.2.1 500 "chrX" (by decide) "X" (by decide)⟩

/-- C10 counterexample: exclude_duplicates is not side-effect-free on its
input.  With two same-key candidates, after the call the first
candidate's check-type list (store address 0) holds the merged elements,
not the elements it held before. -/
theorem exclude_duplicates_mutates_input_cex :
    sread store_c10 0 = ["a"] ∧
    sread (exclude_duplicates_store store_c10 vs_c10).1 0 = ["a", "b"] ∧
    ¬ sread (exclude_duplicates_store store_c10 vs_c10).1 0 = sread store_c10 0 := by
  refine ⟨rfl, rfl, by decide⟩

/-- C10 amended: the in-place mutation of exclude_duplicates is confined
to the three lists of the first occurrence of each key: every store
address that is not a check-type, inheritance or gene-symbol list of a
first-occurrence candidate holds exactly the elements it held before the
call. -/
theorem exclude_duplicates_mutation_confined :
    ∀ (σ : Store) (vs : List CandRef) (r : Nat),
      r ∉ first_occ_refs vs →
      sread (exclude_duplicates_store σ vs).1 r = sread σ r := by
  intro σ vs r hr
  unfold exclude_duplicates_store
  simp only
  apply foldl_merge_frame vs σ [] r (by intro p hp; cases hp)
  intro c hc
  have hrefs : c.checks ∈ first_occ_refs vs ∧ c.inh ∈ first_occ_refs vs ∧
      c.genes ∈ first_occ_refs vs := by
    unfold first_occ_refs
    refine ⟨?_, ?_, ?_⟩ <;> (rw [List.mem_flatMap]; exact ⟨c, by simpa using hc, by simp⟩)
  refine ⟨?_, ?_, ?_⟩ <;> (intro hcon; apply hr; rw [hcon])
  · exact hrefs.1
  · exact hrefs.2.1
  · exact hrefs.2.2

/-- Witness for the amended C10 theorem: address 3 (the second, merged-in
candidate's check-type list) is untouched. -/
theorem exclude_duplicates_mutation_confined_wit :
    sread (exclude_duplicates_store store_c10 vs_c10).1 3 = sread store_c10 3 :=
  exclude_duplicates_mutation_confined store_c10 vs_c10 3 (by decide)

end ClinicalFilter
